import Mathlib

/-!
Verification of a singly-linked stack (a Prusti tutorial repository).

The repository has three variants of the same structure:
  * `src/list_generic_with_peek.rs` — generic `List<T>` with `peek`/`peek_mut`,
    `Link<T> = Option<Box<Node<T>>>`;
  * `src/list_option.rs` — the same with `T = i32` and without peek;
  * `src/main.rs` — the same with an explicit `enum Link { Empty, More(Box<Node>) }`.

We embed the superset variant (`list_generic_with_peek.rs`); the others are
strict subsets with identical bodies. `Box<Node<T>>` is just an owned pointer,
so `Link<T> = Option<Box<Node<T>>>` is embedded as `Option (Node T)`.
Functions that can panic or hit `unreachable!()` return `Option`.
-/

namespace Prusti

/-- `struct Node<T> { elem: T, next: Link<T> }` with
`type Link<T> = Option<Box<Node<T>>>` (the `Box` is erased). -/
inductive Node (T : Type) : Type where
  | mk (elem : T) (next : Option (Node T)) : Node T

/-- `type Link<T> = Option<Box<Node<T>>>`. -/
abbrev Link (T : Type) : Type := Option (Node T)

/-- Field accessor `node.elem`. -/
def Node.elem {T : Type} : Node T → T
  | .mk e _ => e

/-- Field accessor `node.next`. -/
def Node.next {T : Type} : Node T → Link T
  | .mk _ n => n

/-- `pub struct List<T> { head: Link<T> }`. -/
structure List (T : Type) : Type where
  head : Link T

/-- `fn link_len<T>(link: &Link<T>) -> usize`:
empty link has length 0, a node contributes 1 plus the length of its tail. -/
def link_len {T : Type} : Link T → Nat
  | none => 0
  | some (.mk _ next) => 1 + link_len next

/-- `fn link_lookup<T>(link: &Link<T>, index: usize) -> &T`.
The Rust function has precondition `index < link_len(link)` and executes
`unreachable!()` on the `None` branch; we embed the panic as `none`. -/
def link_lookup {T : Type} : Link T → Nat → Option T
  | some (.mk elem next), index =>
      if index = 0 then some elem else link_lookup next (index - 1)
  | none, _ => none

/-- `pub fn len(&self) -> usize { link_len(&self.head) }` -/
def List.len {T : Type} (s : List T) : Nat :=
  link_len s.head

/-- `fn is_empty(&self) -> bool { matches!(self.head, None) }` -/
def List.is_empty {T : Type} (s : List T) : Bool :=
  s.head.isNone

/-- `pub fn new() -> Self { List { head: None } }` -/
def List.new (T : Type) : List T :=
  { head := none }

/-- `pub fn lookup(&self, index: usize) -> &T { link_lookup(&self.head, index) }`
(precondition `index < self.len()`; `none` embeds the unreachable branch). -/
def List.lookup {T : Type} (s : List T) (index : Nat) : Option T :=
  link_lookup s.head index

/-- `pub fn push(&mut self, elem: T)`: builds
`Box::new(Node { elem, next: self.head.take() })` and stores it in `self.head`.
Embedded state-passing style: returns the updated list. -/
def List.push {T : Type} (s : List T) (elem : T) : List T :=
  { head := some (.mk elem s.head) }

/-- `pub fn try_pop(&mut self) -> Option<T>`: `self.head.take()` gives the old
head and leaves `None`; on `Some(node)` the head becomes `node.next` and
`node.elem` is returned. Embedded as (returned value, updated list). -/
def List.try_pop {T : Type} (s : List T) : Option T × List T :=
  match s.head with
  | none => (none, { head := none })
  | some node => (some node.elem, { head := node.next })

/-- `pub fn pop(&mut self) -> T { self.try_pop().unwrap() }`.
`Option::unwrap` panics on `None`; the panic is embedded as `none`, so a
successful call returns `some (value, updated list)`. -/
def List.pop {T : Type} (s : List T) : Option (T × List T) :=
  match s.try_pop with
  | (some v, s2) => some (v, s2)
  | (none, _) => none

/-- `pub fn peek(&self) -> &T { self.lookup(0) }`
(precondition `!self.is_empty()`). -/
def List.peek {T : Type} (s : List T) : Option T :=
  s.lookup 0

/-- `pub fn peek_mut(&mut self) -> &mut T`: returns `&mut node.elem` for the
head node, `unreachable!()` on an empty list. A mutable borrow is embedded by
its observable effect: given the value `v` the caller leaves in the reference
when it expires, the call yields `some (initial value of the reference,
state of the list after expiry)`; the unreachable branch yields `none`. -/
def List.peek_mut {T : Type} (s : List T) (v : T) : Option (T × List T) :=
  match s.head with
  | some node => some (node.elem, { head := some (.mk v node.next) })
  | none => none

/-- The two-state `predicate! head_removed(&self, prev: &Self)`:
`self.len() == prev.len() - 1` (usize subtraction embedded as truncated `Nat`
subtraction) and every index `i` with `1 <= i < prev.len()` satisfies
`prev.lookup(i) === self.lookup(i-1)`. -/
def List.head_removed {T : Type} (s prev : List T) : Prop :=
  s.len = prev.len - 1 ∧
  ∀ i : Nat, 1 ≤ i ∧ i < prev.len → prev.lookup i = s.lookup (i - 1)

/-- Fuel-indexed variant of `link_len`: each recursive call of the Rust
`link_len` consumes one unit of fuel; `none` means the fuel ran out before
the traversal finished. Used to state the recursion-depth bound of C9. -/
def link_len_fuel {T : Type} : Nat → Link T → Option Nat
  | _, none => some 0
  | 0, some _ => none
  | fuel + 1, some (.mk _ next) =>
      (link_len_fuel fuel next).map (fun n => 1 + n)

/-- Fuel-indexed variant of `link_lookup`; `none` means the fuel ran out
before the lookup finished (it does not model the unreachable branch, which
cannot be reached when the fuel bound is the subject). -/
def link_lookup_fuel {T : Type} : Nat → Link T → Nat → Option T
  | _, none, _ => none
  | _, some (.mk elem _), 0 => some elem
  | 0, some _, _ + 1 => none
  | fuel + 1, some (.mk _ next), index + 1 => link_lookup_fuel fuel next index

/-- The index-th node counting from the head (index 0 = head node), as in the
data model: "Element at logical index i is the element of the i-th node
counting from head". Used to state what `lookup` returns. -/
def nth_node {T : Type} : Link T → Nat → Option (Node T)
  | none, _ => none
  | some node, 0 => some node
  | some (.mk _ next), i + 1 => nth_node next i

/-! ### Helper lemmas (shared) -/

theorem link_len_cons {T : Type} (e : T) (n : Link T) :
    link_len (some (.mk e n)) = 1 + link_len n := by
  simp [link_len]

theorem link_lookup_cons_zero {T : Type} (e : T) (n : Link T) :
    link_lookup (some (.mk e n)) 0 = some e := by
  simp [link_lookup]

theorem link_lookup_cons_ne {T : Type} (e : T) (n : Link T) {i : Nat}
    (h : i ≠ 0) : link_lookup (some (.mk e n)) i = link_lookup n (i - 1) := by
  rw [link_lookup]
  simp [h]

theorem is_empty_eq_false {T : Type} {s : List T} (h : s.is_empty = false) :
    ∃ (e : T) (n : Link T), s.head = some (.mk e n) := by
  unfold List.is_empty at h
  cases hs : s.head with
  | none => rw [hs] at h; simp at h
  | some node => cases node with
    | mk e n => exact ⟨e, n, rfl⟩

theorem is_empty_eq_true {T : Type} {s : List T} (h : s.is_empty = true) :
    s.head = none := by
  unfold List.is_empty at h
  exact Option.isNone_iff_eq_none.mp h

theorem link_lookup_eq_nth_node {T : Type} :
    ∀ (l : Link T) (i : Nat), link_lookup l i = (nth_node l i).map Node.elem
  | none, _ => by simp [link_lookup, nth_node]
  | some (.mk e n), 0 => by simp [link_lookup, nth_node, Node.elem]
  | some (.mk e n), i + 1 => by
      rw [link_lookup_cons_ne e n (Nat.succ_ne_zero i)]
      simp only [Nat.succ_sub_one]
      rw [link_lookup_eq_nth_node n i]
      rw [nth_node]

theorem nth_node_isSome {T : Type} :
    ∀ (l : Link T) (i : Nat), i < link_len l → (nth_node l i).isSome = true
  | none, i, h => by simp [link_len] at h
  | some (.mk e n), 0, _ => by simp [nth_node]
  | some (.mk e n), i + 1, h => by
      rw [link_len_cons] at h
      rw [nth_node]
      exact nth_node_isSome n i (by omega)

theorem link_lookup_isSome {T : Type} (l : Link T) (i : Nat)
    (h : i < link_len l) : (link_lookup l i).isSome = true := by
  rw [link_lookup_eq_nth_node]
  have h2 := nth_node_isSome l i h
  cases hn : nth_node l i with
  | none => rw [hn] at h2; simp at h2
  | some node => rfl

theorem eq_mk_none_of_is_empty {T : Type} {s : List T}
    (h : s.is_empty = true) : s = { head := none } := by
  have hs : s.head = none := is_empty_eq_true h
  cases s
  simp_all

/-- Shared description of `try_pop` on a non-empty stack: the returned value
is the old head element, the new state is the old tail, and `head_removed`
relates the two states. -/
theorem try_pop_aux {T : Type} (e : T) (n : Link T) :
    (List.try_pop { head := some (.mk e n) } : Option T × List T) =
      (some e, { head := n }) ∧
    (List.lookup { head := some (.mk e n) } 0 : Option T) = some e ∧
    List.head_removed { head := n } { head := some (.mk e n) } := by
  refine ⟨rfl, link_lookup_cons_zero e n, ?_⟩
  unfold List.head_removed
  constructor
  · show link_len n = link_len (some (.mk e n)) - 1
    rw [link_len_cons]
    omega
  · intro i hi
    exact link_lookup_cons_ne e n (by omega)

/-! ### Claims -/

/-- Claim C1: for every stack `s` and element `v`, after `push(v)` the length
equals the old length plus 1, `lookup(0)` yields `v`, and for every index `i`
valid before the call (`i < old length`), the old `lookup(i)` equals the new
`lookup(i+1)` — push is a pure prepend. -/
theorem push_spec {T : Type} (s : List T) (v : T) :
    (s.push v).len = s.len + 1 ∧
    (s.push v).lookup 0 = some v ∧
    ∀ i : Nat, i < s.len → s.lookup i = (s.push v).lookup (i + 1) := by
  refine ⟨?_, ?_, ?_⟩
  · show link_len (some (.mk v s.head)) = link_len s.head + 1
    rw [link_len_cons]
    omega
  · show link_lookup (some (.mk v s.head)) 0 = some v
    exact link_lookup_cons_zero v s.head
  · intro i _
    show link_lookup s.head i = link_lookup (some (.mk v s.head)) (i + 1)
    rw [link_lookup_cons_ne v s.head (Nat.succ_ne_zero i)]
    simp only [Nat.succ_sub_one]

/-- Witness for C1 on the concrete stack `[5]` with `v = 10`, index `i = 0`. -/
theorem push_spec_witness :
    0 < ((List.new Int).push 5).len ∧
    ((List.new Int).push 5).lookup 0 =
      (((List.new Int).push 5).push 10).lookup (0 + 1) :=
  ⟨by simp [List.new, List.push, List.len, link_len],
   (push_spec ((List.new Int).push 5) 10).2.2 0
     (by simp [List.new, List.push, List.len, link_len])⟩

/-- Claim C4: for every empty stack, `try_pop()` returns `None` and the stack
remains empty afterwards (an idempotent no-op: the state is unchanged). -/
theorem try_pop_empty_spec {T : Type} (s : List T) (h : s.is_empty = true) :
    s.try_pop = (none, s) ∧ (s.try_pop).2.is_empty = true := by
  have := eq_mk_none_of_is_empty h
  subst this
  exact ⟨rfl, rfl⟩

/-- Witness for C4 on the concrete empty stack. -/
theorem try_pop_empty_spec_witness :
    (List.new Int).is_empty = true ∧
    ((List.new Int).try_pop = (none, List.new Int) ∧
      ((List.new Int).try_pop).2.is_empty = true) :=
  ⟨rfl, try_pop_empty_spec (List.new Int) rfl⟩

/-- Claim C6: round-trip — for every stack `s` and value `v`, `push(v)` then
`pop()` returns `v` and restores a stack equal to the original `s`, both in
length and element-wise at every index. -/
theorem push_pop_roundtrip {T : Type} (s : List T) (v : T) :
    ∃ s2 : List T, (s.push v).pop = some (v, s2) ∧ s2 = s ∧
      s2.len = s.len ∧ ∀ i : Nat, s2.lookup i = s.lookup i := by
  refine ⟨s, ?_, rfl, rfl, fun i => rfl⟩
  cases s
  rfl

/-- Claim C7: for every stack `s`, `is_empty()` returns true if and only if
`len()` returns 0. -/
theorem is_empty_iff_len_zero {T : Type} (s : List T) :
    s.is_empty = true ↔ s.len = 0 := by
  cases s with
  | mk head =>
    cases head with
    | none =>
      simp [List.is_empty, List.len, link_len]
    | some node =>
      cases node with
      | mk e n =>
        simp only [List.is_empty, List.len]
        rw [link_len_cons]
        simp

/-- Claim C2: for every non-empty stack `s`, `try_pop()` returns `Some v`
where `v` equals the pre-call `lookup(0)`, and the post-call state satisfies
`head_removed`: new length = old length − 1, and for every index `i` with
`1 ≤ i < old length`, old `lookup(i)` = new `lookup(i-1)`. -/
theorem try_pop_nonempty_spec {T : Type} (s : List T)
    (h : s.is_empty = false) :
    ∃ (v : T) (s2 : List T), s.try_pop = (some v, s2) ∧
      s.lookup 0 = some v ∧ s2.head_removed s := by
  obtain ⟨e, n, hs⟩ := is_empty_eq_false h
  have hsplit : s = { head := some (.mk e n) } := by cases s; simp_all
  subst hsplit
  obtain ⟨h1, h2, h3⟩ := try_pop_aux e n
  exact ⟨e, { head := n }, h1, h2, h3⟩

/-- Witness for C2 on the concrete stack `[10, 5]` (10 pushed last). -/
theorem try_pop_nonempty_spec_witness :
    (((List.new Int).push 5).push 10).is_empty = false ∧
    ∃ (v : Int) (s2 : List Int),
      (((List.new Int).push 5).push 10).try_pop = (some v, s2) ∧
      (((List.new Int).push 5).push 10).lookup 0 = some v ∧
      s2.head_removed (((List.new Int).push 5).push 10) :=
  ⟨rfl, try_pop_nonempty_spec (((List.new Int).push 5).push 10) rfl⟩

/-- Claim C3: for every non-empty stack, `pop()` agrees with
`try_pop().unwrap()`: it returns the pre-call `lookup(0)` and leaves a state
satisfying `head_removed`, the same value and state as the non-empty branch
of `try_pop`. -/
theorem pop_spec {T : Type} (s : List T) (h : s.is_empty = false) :
    ∃ (v : T) (s2 : List T), s.try_pop = (some v, s2) ∧
      s.pop = some (v, s2) ∧ s.lookup 0 = some v ∧ s2.head_removed s := by
  obtain ⟨e, n, hs⟩ := is_empty_eq_false h
  have hsplit : s = { head := some (.mk e n) } := by cases s; simp_all
  subst hsplit
  obtain ⟨h1, h2, h3⟩ := try_pop_aux e n
  exact ⟨e, { head := n }, h1, rfl, h2, h3⟩

/-- Witness for C3 on the concrete stack `[10, 5]` (10 pushed last). -/
theorem pop_spec_witness :
    (((List.new Int).push 5).push 10).is_empty = false ∧
    ∃ (v : Int) (s2 : List Int),
      (((List.new Int).push 5).push 10).try_pop = (some v, s2) ∧
      (((List.new Int).push 5).push 10).pop = some (v, s2) ∧
      (((List.new Int).push 5).push 10).lookup 0 = some v ∧
      s2.head_removed (((List.new Int).push 5).push 10) :=
  ⟨rfl, pop_spec (((List.new Int).push 5).push 10) rfl⟩

/-- Claim C5: for every non-empty stack, `peek_mut()` exposes a mutable
reference whose initial value equals `peek()`; writing a value `v` through it
leaves the length and every element at index ≥ 1 unchanged, and `v` becomes
the new `peek()` / `lookup(0)` value once the reference expires. -/
theorem peek_mut_spec {T : Type} (s : List T) (v : T)
    (h : s.is_empty = false) :
    ∃ (init : T) (s2 : List T), s.peek_mut v = some (init, s2) ∧
      s.peek = some init ∧
      s2.len = s.len ∧
      (∀ i : Nat, 1 ≤ i → s2.lookup i = s.lookup i) ∧
      s2.peek = some v ∧ s2.lookup 0 = some v := by
  obtain ⟨e, n, hs⟩ := is_empty_eq_false h
  have hsplit : s = { head := some (.mk e n) } := by cases s; simp_all
  subst hsplit
  refine ⟨e, { head := some (.mk v n) }, rfl, link_lookup_cons_zero e n,
    ?_, ?_, link_lookup_cons_zero v n, link_lookup_cons_zero v n⟩
  · show link_len (some (.mk v n)) = link_len (some (.mk e n))
    rw [link_len_cons, link_len_cons]
  · intro i hi
    have hne : i ≠ 0 := by omega
    show link_lookup (some (.mk v n)) i = link_lookup (some (.mk e n)) i
    rw [link_lookup_cons_ne v n hne, link_lookup_cons_ne e n hne]

/-- Witness for C5: the round-trip scenario from the spec — push 8, push 16, assign
5 through the reference; then `len() == 2`, `lookup(0) == 5`,
`lookup(1) == 8`, and the reference initially held 16. -/
theorem peek_mut_spec_witness :
    (((List.new Int).push 8).push 16).is_empty = false ∧
    ∃ (init : Int) (s2 : List Int),
      (((List.new Int).push 8).push 16).peek_mut 5 = some (init, s2) ∧
      init = 16 ∧ s2.len = 2 ∧ s2.lookup 0 = some 5 ∧ s2.lookup 1 = some 8 := by
  refine ⟨rfl, ?_⟩
  obtain ⟨init, s2, h1, h2, h3, h4, h5, h6⟩ :=
    peek_mut_spec (((List.new Int).push 8).push 16) 5 rfl
  refine ⟨init, s2, h1, ?_, ?_, h6, ?_⟩
  · have hv : (((List.new Int).push 8).push 16).peek = some (16 : Int) := by
      simp [List.new, List.push, List.peek, List.lookup, link_lookup]
    exact (Option.some.inj (hv.symm.trans h2)).symm
  · rw [h3]
    simp [List.new, List.push, List.len, link_len]
  · rw [h4 1 (by omega)]
    simp [List.new, List.push, List.lookup, link_lookup]

/-- Claim C8: for every stack and every index with `index < len()`,
`lookup(index)` returns the element of the index-th node from the head, and
the `unreachable!()` branch of the recursive `link_lookup` is never reached
under the precondition: the result is always `some`. -/
theorem lookup_spec {T : Type} (s : List T) (index : Nat)
    (h : index < s.len) :
    ∃ v : T, s.lookup index = some v ∧
      (nth_node s.head index).map Node.elem = some v := by
  have h1 := link_lookup_isSome s.head index h
  obtain ⟨v, hv⟩ := Option.isSome_iff_exists.mp h1
  refine ⟨v, hv, ?_⟩
  rw [← link_lookup_eq_nth_node]
  exact hv

/-- Witness for C8 on the concrete stack `[10, 5]` at index 1. -/
theorem lookup_spec_witness :
    1 < (((List.new Int).push 5).push 10).len ∧
    ∃ v : Int, (((List.new Int).push 5).push 10).lookup 1 = some v ∧
      (nth_node (((List.new Int).push 5).push 10).head 1).map Node.elem =
        some v :=
  ⟨by simp [List.new, List.push, List.len, link_len],
   lookup_spec (((List.new Int).push 5).push 10) 1
     (by simp [List.new, List.push, List.len, link_len])⟩

theorem link_len_fuel_enough {T : Type} :
    ∀ (l : Link T) (f : Nat), link_len l ≤ f →
      link_len_fuel f l = some (link_len l)
  | none, f, _ => by simp [link_len_fuel, link_len]
  | some (.mk e n), f, h => by
      rw [link_len_cons] at h
      obtain ⟨f', rfl⟩ : ∃ f', f = f' + 1 := ⟨f - 1, by omega⟩
      rw [link_len_fuel, link_len_fuel_enough n f' (by omega), link_len_cons]
      rfl

theorem link_len_fuel_short {T : Type} :
    ∀ (l : Link T) (f : Nat), f < link_len l → link_len_fuel f l = none
  | none, f, h => by simp [link_len] at h
  | some (.mk e n), 0, _ => by rw [link_len_fuel]
  | some (.mk e n), f + 1, h => by
      rw [link_len_cons] at h
      rw [link_len_fuel, link_len_fuel_short n f (by omega)]
      rfl

theorem link_lookup_fuel_enough {T : Type} :
    ∀ (l : Link T) (i f : Nat), i < link_len l → i ≤ f →
      link_lookup_fuel f l i = link_lookup l i
  | none, _, _, h, _ => by simp [link_len] at h
  | some (.mk e n), 0, f, _, _ => by
      rw [link_lookup_cons_zero]
      cases f <;> rw [link_lookup_fuel]
  | some (.mk e n), i + 1, f, h, hf => by
      rw [link_len_cons] at h
      obtain ⟨f', rfl⟩ : ∃ f', f = f' + 1 := ⟨f - 1, by omega⟩
      rw [link_lookup_cons_ne e n (Nat.succ_ne_zero i)]
      simp only [Nat.succ_sub_one]
      rw [link_lookup_fuel]
      exact link_lookup_fuel_enough n i f' (by omega) (by omega)

/-- Claim C9: the recursively defined `link_len` and `link_lookup` terminate
on every chain, with recursion depth equal to the list length: fuel equal to
`len` always suffices (and reproduces the results of the total functions), while on
a non-empty chain fuel `len − 1` is exhausted before `link_len` finishes.
Every operation of the embedding (`new`, `len`, `is_empty`, `lookup`, `push`,
`pop`, `try_pop`, `peek`, `peek_mut`) is a total function, which is what
makes stating this bound possible. -/
theorem termination_depth_spec {T : Type} (s : List T) (i : Nat)
    (hi : i < s.len) :
    link_len_fuel s.len s.head = some s.len ∧
    (s.is_empty = false → link_len_fuel (s.len - 1) s.head = none) ∧
    link_lookup_fuel s.len s.head i = link_lookup s.head i := by
  refine ⟨link_len_fuel_enough s.head s.len le_rfl, ?_,
    link_lookup_fuel_enough s.head i s.len hi (by omega)⟩
  intro hne
  obtain ⟨e, n, hs⟩ := is_empty_eq_false hne
  have hlen : s.len = link_len s.head := rfl
  have hpos : 0 < s.len := by
    rw [hlen, hs, link_len_cons]
    omega
  exact link_len_fuel_short s.head (s.len - 1) (by omega)

/-- Witness for C9 on the concrete stack `[10, 5]` at index 1, with the
inner non-emptiness hypothesis also discharged. -/
theorem termination_depth_spec_witness :
    1 < (((List.new Int).push 5).push 10).len ∧
    (((List.new Int).push 5).push 10).is_empty = false ∧
    link_len_fuel (((List.new Int).push 5).push 10).len
        (((List.new Int).push 5).push 10).head =
      some (((List.new Int).push 5).push 10).len ∧
    link_len_fuel ((((List.new Int).push 5).push 10).len - 1)
        (((List.new Int).push 5).push 10).head = none ∧
    link_lookup_fuel (((List.new Int).push 5).push 10).len
        (((List.new Int).push 5).push 10).head 1 =
      link_lookup (((List.new Int).push 5).push 10).head 1 := by
  obtain ⟨h1, h2, h3⟩ := termination_depth_spec (((List.new Int).push 5).push 10) 1
    (by simp [List.new, List.push, List.len, link_len])
  exact ⟨by simp [List.new, List.push, List.len, link_len], rfl, h1, h2 rfl, h3⟩

/-- Claim C10: for every empty stack, `pop()` panics — `try_pop()` returns
`None` and its `unwrap()` fails — rather than returning a value. The panic is
embedded as the `none` result of `List.pop`. -/
theorem pop_empty_panics {T : Type} (s : List T) (h : s.is_empty = true) :
    s.pop = none := by
  have := eq_mk_none_of_is_empty h
  subst this
  rfl

/-- Witness for C10 on the concrete empty stack. -/
theorem pop_empty_panics_witness :
    (List.new Int).is_empty = true ∧ (List.new Int).pop = none :=
  ⟨rfl, pop_empty_panics (List.new Int) rfl⟩

end Prusti
